import Mathlib

/-!
Shallow embedding of the LangExtract provider adapters
`AnthropicLanguageModel` (src/langextract/providers/anthropic.py) and
`MistralLanguageModel` (src/langextract/providers/mistral.py), and proofs
about their construction and batched-inference behaviour.

Conventions of the embedding:
* Python `float` values that are only stored and passed through
  (temperature, top-p, the constant score 1.0) are modelled as `Rat`;
  no arithmetic is ever performed on them in the source.
* A Python keyword argument that may be absent is an `Option` field,
  `none` meaning the key is absent.
* The remote client is modelled as a function from the request actually
  sent (model id, message list, temperature, max_tokens, top_p) to either
  a response value or an exception.
* A generator (`infer` contains `yield`) is modelled by its run-to-
  completion trace: the list of requests issued, the list of values
  yielded before termination, and the exception (if any) that ended it.
* The nondeterministic completion order of `concurrent.futures.as_completed`
  is an explicit list of indices supplied as a parameter; theorems about
  the parallel path quantify over all permutations of the index range.
-/

/-- Modelled from the spec: the output-format selector enum
(`data.FormatType`; the `data` module is not under src/). The spec gives
it exactly the two values structured-JSON and structured-YAML. -/
inductive FormatType where
  | json
  | yaml
deriving DecidableEq, Repr

/-- Modelled from the spec: a Scored Output, "a result consisting of a
text payload and a numeric confidence/score" (`inference.ScoredOutput`;
the `inference` module is not under src/). -/
structure ScoredOutput where
  score : Rat
  output : String
deriving DecidableEq, Repr

/-- Modelled from the spec: the exception taxonomy (`exceptions` module,
not under src/). `backendError` stands for an arbitrary exception raised
by the remote client; `indexError` for Python's IndexError raised when
indexing an empty content list; `inferenceConfigError` is the spec's
`ConfigurationError`; `inferenceRuntimeError msg original` carries an
optional original exception, as the source passes `original=e`. -/
inductive PyExn where
  | backendError (msg : String)
  | indexError (msg : String)
  | inferenceConfigError (msg : String)
  | inferenceRuntimeError (msg : String) (original : Option PyExn)

/-- Python `str(e)` on an exception: its message. -/
def PyExn.str : PyExn → String
  | .backendError m => m
  | .indexError m => m
  | .inferenceConfigError m => m
  | .inferenceRuntimeError m _ => m

/-- The `original` argument stored on an `InferenceRuntimeError`
(`none` for every other exception or when not supplied). -/
def PyExn.original : PyExn → Option PyExn
  | .inferenceRuntimeError _ o => o
  | _ => none

/-- Chat message roles used by the adapters (lines 119-123 of both files). -/
inductive Role where
  | system
  | user
deriving DecidableEq, Repr

/-- One chat message dict `{'role': ..., 'content': ...}`. -/
structure Message where
  role : Role
  content : String
deriving DecidableEq, Repr

/-- The arguments of the remote call made by `_process_single_prompt`
(anthropic.py lines 126-132 `self._client.messages.create(...)`,
mistral.py lines 126-132 `self._client.chat.complete(...)`):
model id, message list, temperature, max_tokens, top_p. `none` in
`max_tokens` / `top_p` is Python `None`/unset. -/
structure Request where
  model : String
  messages : List Message
  temperature : Rat
  max_tokens : Option Int
  top_p : Option Rat
deriving DecidableEq, Repr

/-- One element of `response.content` of the Anthropic SDK response
(anthropic.py line 135 reads `response.content[0].text`). -/
structure ContentBlock where
  text : String
deriving DecidableEq, Repr

/-- The Anthropic SDK response, as read by the adapter. -/
structure AnthropicResponse where
  content : List ContentBlock
deriving DecidableEq, Repr

/-- The message object inside a Mistral SDK choice
(mistral.py line 135 reads `response.choices[0].message.content`). -/
structure MistralMessage where
  content : String
deriving DecidableEq, Repr

/-- One element of `response.choices` of the Mistral SDK response. -/
structure MistralChoice where
  message : MistralMessage
deriving DecidableEq, Repr

/-- The Mistral SDK response, as read by the adapter. -/
structure MistralResponse where
  choices : List MistralChoice
deriving DecidableEq, Repr

/-- The configuration fields of the two provider dataclasses; the field
lists of `AnthropicLanguageModel` (anthropic.py lines 39-44) and
`MistralLanguageModel` (mistral.py lines 39-44) are identical, so one
structure embeds both. `api_key = none` is Python `None`; `some ""` is an
explicit empty string (both falsy). `max_workers` is a Python int. The
`_client` handle and `_extra_kwargs` bag carry no information the claims
need beyond what the constructor functions below record. -/
structure ProviderConfig where
  model_id : String
  api_key : Option String
  base_url : Option String
  format_type : FormatType
  temperature : Rat
  max_workers : Int
deriving DecidableEq, Repr

/-- Python truthiness of the optional `api_key` string:
`not self.api_key` holds exactly when it is `None` or empty. -/
def apiKeyFalsy (k : Option String) : Bool :=
  match k with
  | none => true
  | some s => s = ""

/-- Embeds `AnthropicLanguageModel.__init__` (anthropic.py lines 50-101).
`anthropicAvailable` models whether `import anthropic` succeeds (line 75);
`env` models the process environment value `ANTHROPIC_API_KEY`, which the
source never reads: the body ignores it. The constructor raises
`InferenceConfigError` on a failed import (lines 76-80) or a falsy
`api_key` (lines 90-91), in that order, before the client handle is
created (lines 94-97); the client constructor performs no network call. -/
def anthropicInit (anthropicAvailable : Bool) (_env : Option String)
    (model_id : String) (api_key : Option String) (base_url : Option String)
    (format_type : FormatType) (temperature : Rat) (max_workers : Int) :
    Except PyExn ProviderConfig :=
  if !anthropicAvailable then
    .error (.inferenceConfigError
      ("Anthropic provider requires anthropic package. " ++
       "Install with: pip install langextract[anthropic]"))
  else if apiKeyFalsy api_key then
    .error (.inferenceConfigError "API key not provided for Anthropic.")
  else
    .ok { model_id := model_id, api_key := api_key, base_url := base_url,
          format_type := format_type, temperature := temperature,
          max_workers := max_workers }

/-- Embeds `MistralLanguageModel.__init__` (mistral.py lines 50-101).
`mistralAvailable` models whether `from mistralai import Mistral`
succeeds (line 75); `env` models `MISTRAL_API_KEY`, never read by the
source. Structure identical to `anthropicInit`. -/
def mistralInit (mistralAvailable : Bool) (_env : Option String)
    (model_id : String) (api_key : Option String) (base_url : Option String)
    (format_type : FormatType) (temperature : Rat) (max_workers : Int) :
    Except PyExn ProviderConfig :=
  if !mistralAvailable then
    .error (.inferenceConfigError
      ("Mistral provider requires mistralai package. " ++
       "Install with: pip install langextract[mistral]"))
  else if apiKeyFalsy api_key then
    .error (.inferenceConfigError "API key not provided for Mistral.")
  else
    .ok { model_id := model_id, api_key := api_key, base_url := base_url,
          format_type := format_type, temperature := temperature,
          max_workers := max_workers }

/-- The call-level overrides read from `**kwargs` by `infer`
(lines 156-162 of both files); a field of `none` means the key is absent
from `kwargs`. -/
structure InferKwargs where
  temperature : Option Rat
  max_output_tokens : Option Int
  top_p : Option Rat
deriving DecidableEq, Repr

/-- The `config` dict built by `infer` (lines 156-162 of both files):
the `temperature` key is always present (`kwargs.get('temperature',
self.temperature)`); `max_output_tokens` and `top_p` are present exactly
when they are in `kwargs`. -/
structure CallConfig where
  temperature : Option Rat
  max_output_tokens : Option Int
  top_p : Option Rat
deriving DecidableEq, Repr

/-- Lines 156-162 of both files: build the per-call `config` dict from
`kwargs` and the instance default temperature. -/
def buildConfig (instTemperature : Rat) (kw : InferKwargs) : CallConfig :=
  { temperature := some (kw.temperature.getD instTemperature),
    max_output_tokens := kw.max_output_tokens,
    top_p := kw.top_p }

/-- Lines 108-117 of both files: the system directive chosen for the
configured output format (`system_message` starts as `''` and is set in
the JSON and YAML branches; the enum has no other values). -/
def systemMessage (fmt : FormatType) : String :=
  match fmt with
  | .json => "You are a helpful assistant that responds in JSON format."
  | .yaml => "You are a helpful assistant that responds in YAML format."

/-- Lines 119-123 of both files: the message list sent to the backend —
the system message when non-empty, then the user prompt. -/
def buildMessages (fmt : FormatType) (prompt : String) : List Message :=
  (if systemMessage fmt ≠ "" then [⟨Role.system, systemMessage fmt⟩] else [])
    ++ [⟨Role.user, prompt⟩]

/-- The arguments of the Anthropic remote call (anthropic.py lines
126-132): `temperature=config.get('temperature', self.temperature)`,
`max_tokens=config.get('max_output_tokens', 4096)`,
`top_p=config.get('top_p')`. -/
def anthropicRequest (m : ProviderConfig) (config : CallConfig)
    (prompt : String) : Request :=
  { model := m.model_id,
    messages := buildMessages m.format_type prompt,
    temperature := config.temperature.getD m.temperature,
    max_tokens := some (config.max_output_tokens.getD 4096),
    top_p := config.top_p }

/-- The arguments of the Mistral remote call (mistral.py lines 126-132):
identical except `max_tokens=config.get('max_output_tokens')`, which is
`None` when the key is absent. -/
def mistralRequest (m : ProviderConfig) (config : CallConfig)
    (prompt : String) : Request :=
  { model := m.model_id,
    messages := buildMessages m.format_type prompt,
    temperature := config.temperature.getD m.temperature,
    max_tokens := config.max_output_tokens,
    top_p := config.top_p }

namespace AnthropicLanguageModel

/-- Embeds `AnthropicLanguageModel._process_single_prompt` (anthropic.py
lines 103-142). Returns the request issued together with the outcome:
on a successful call, the first content element's text with score 1.0
(lines 134-137); indexing an empty content list raises IndexError, and
every exception of the try block is re-raised as
`InferenceRuntimeError('Anthropic API error: ...', original=e)`
(lines 139-142). -/
def process_single_prompt (m : ProviderConfig)
    (backend : Request → Except PyExn AnthropicResponse)
    (prompt : String) (config : CallConfig) :
    Request × Except PyExn ScoredOutput :=
  let req := anthropicRequest m config prompt
  let outcome : Except PyExn ScoredOutput :=
    match backend req with
    | .error e =>
        .error (.inferenceRuntimeError ("Anthropic API error: " ++ e.str)
          (some e))
    | .ok resp =>
        match resp.content with
        | [] =>
            .error (.inferenceRuntimeError
              ("Anthropic API error: " ++ "list index out of range")
              (some (.indexError "list index out of range")))
        | c :: _ => .ok { score := 1, output := c.text }
  (req, outcome)

end AnthropicLanguageModel

namespace MistralLanguageModel

/-- Embeds `MistralLanguageModel._process_single_prompt` (mistral.py
lines 103-142): as the Anthropic variant, but the text payload is
`response.choices[0].message.content` and the tag is
`'Mistral API error: '`. -/
def process_single_prompt (m : ProviderConfig)
    (backend : Request → Except PyExn MistralResponse)
    (prompt : String) (config : CallConfig) :
    Request × Except PyExn ScoredOutput :=
  let req := mistralRequest m config prompt
  let outcome : Except PyExn ScoredOutput :=
    match backend req with
    | .error e =>
        .error (.inferenceRuntimeError ("Mistral API error: " ++ e.str)
          (some e))
    | .ok resp =>
        match resp.choices with
        | [] =>
            .error (.inferenceRuntimeError
              ("Mistral API error: " ++ "list index out of range")
              (some (.indexError "list index out of range")))
        | c :: _ => .ok { score := 1, output := c.message.content }
  (req, outcome)

end MistralLanguageModel

/-- The run-to-completion trace of one `infer` generator call:
the requests issued to the backend, the values yielded before the
generator finished or raised, the exception ending it (`none` = normal
completion), and the `max_workers` the thread pool was created with
(`none` when the sequential branch was taken, so no pool was created). -/
structure GenResult where
  calls : List Request
  yielded : List (List ScoredOutput)
  error : Option PyExn
  poolWorkers : Option Int

/-- Lines 194-198 of both files, the sequential branch: process each
prompt in input order, yielding `[result]` after each; an exception from
`_process_single_prompt` is uncaught there and ends the generator at
that prompt (everything yielded before it stands). Returns
(requests issued, yields, terminating exception). -/
def runSequential (process : String → Request × Except PyExn ScoredOutput) :
    List String → List Request × List (List ScoredOutput) × Option PyExn
  | [] => ([], [], none)
  | p :: rest =>
      match (process p).2 with
      | .error e => ([(process p).1], [], some e)
      | .ok s =>
          ((process p).1 :: (runSequential process rest).1,
           [s] :: (runSequential process rest).2.1,
           (runSequential process rest).2.2)

/-- Lines 179-186 of both files: the `as_completed` collection loop.
`tasks` holds the per-index outcomes of the submitted futures; `order`
is the completion order; `buf` is the `results` buffer (`[None] * n`,
modelled as a total function from index). The first future whose
`result()` raises makes the whole call raise
`InferenceRuntimeError('Parallel inference error: ...', original=e)`
immediately; otherwise the result is stored at its submission index. -/
def asCompletedLoop (tasks : List (Except PyExn ScoredOutput)) :
    List Nat → (Nat → Option ScoredOutput) →
    (Nat → Option ScoredOutput) × Option PyExn
  | [], buf => (buf, none)
  | i :: rest, buf =>
      match tasks[i]? with
      | some (.error e) =>
          (buf, some (.inferenceRuntimeError
            ("Parallel inference error: " ++ e.str) (some e)))
      | some (.ok s) =>
          asCompletedLoop tasks rest (fun j => if j = i then some s else buf j)
      | none => asCompletedLoop tasks rest buf

/-- Lines 188-193 of both files: iterate the `results` buffer in index
order, raising `InferenceRuntimeError('Failed to process one or more
prompts')` (with no original) at the first `None` slot, yielding
`[result]` for each filled slot before it. -/
def yieldLoop (buf : Nat → Option ScoredOutput) :
    List Nat → List (List ScoredOutput) × Option PyExn
  | [] => ([], none)
  | j :: rest =>
      match buf j with
      | none =>
          ([], some (.inferenceRuntimeError
            "Failed to process one or more prompts" none))
      | some r =>
          ([r] :: (yieldLoop buf rest).1, (yieldLoop buf rest).2)

/-- Lines 166-193 of both files, the parallel branch: all prompts are
submitted (so every request is issued), the futures are collected in
completion order `order` into the buffer, and — only if collection did
not raise — the buffer is yielded in index order. A raise during
collection happens before the first `yield`, so nothing is yielded. -/
def runParallel (process : String → Request × Except PyExn ScoredOutput)
    (prompts : List String) (order : List Nat) :
    List Request × List (List ScoredOutput) × Option PyExn :=
  let calls := prompts.map (fun p => (process p).1)
  let tasks := prompts.map (fun p => (process p).2)
  let collected := asCompletedLoop tasks order (fun _ => none)
  match collected.2 with
  | some e => (calls, [], some e)
  | none =>
      (calls, (yieldLoop collected.1 (List.range prompts.length)).1,
       (yieldLoop collected.1 (List.range prompts.length)).2)

/-- Lines 156-198 of both files: the `infer` body, generic in the
per-prompt processing function (the two files are line-for-line
identical here). The parallel branch is taken iff
`len(batch_prompts) > 1 and self.max_workers > 1` (line 165), with the
pool sized `min(self.max_workers, len(batch_prompts))` (line 167). -/
def inferGeneric (maxWorkers : Int)
    (process : String → Request × Except PyExn ScoredOutput)
    (prompts : List String) (order : List Nat) : GenResult :=
  if 1 < prompts.length ∧ 1 < maxWorkers then
    { calls := (runParallel process prompts order).1,
      yielded := (runParallel process prompts order).2.1,
      error := (runParallel process prompts order).2.2,
      poolWorkers := some (min maxWorkers (prompts.length : Int)) }
  else
    { calls := (runSequential process prompts).1,
      yielded := (runSequential process prompts).2.1,
      error := (runSequential process prompts).2.2,
      poolWorkers := none }

namespace AnthropicLanguageModel

/-- Embeds `AnthropicLanguageModel.infer` (anthropic.py lines 144-198):
build the call config from `**kwargs` (lines 156-162), then run the
generic batch body over `_process_single_prompt`. `order` is the
completion order of the worker pool (unused in the sequential branch). -/
def infer (m : ProviderConfig)
    (backend : Request → Except PyExn AnthropicResponse)
    (prompts : List String) (kw : InferKwargs) (order : List Nat) :
    GenResult :=
  let config := buildConfig m.temperature kw
  inferGeneric m.max_workers
    (fun p => process_single_prompt m backend p config) prompts order

end AnthropicLanguageModel

namespace MistralLanguageModel

/-- Embeds `MistralLanguageModel.infer` (mistral.py lines 144-198),
identically structured. -/
def infer (m : ProviderConfig)
    (backend : Request → Except PyExn MistralResponse)
    (prompts : List String) (kw : InferKwargs) (order : List Nat) :
    GenResult :=
  let config := buildConfig m.temperature kw
  inferGeneric m.max_workers
    (fun p => process_single_prompt m backend p config) prompts order

end MistralLanguageModel

/-! ## Auxiliary definitions used by the proofs -/

/-- The value of a successful task slot (arbitrary placeholder on a
failed or out-of-range slot); used to name the contents of the results
buffer in proofs. -/
def taskVal (tasks : List (Except PyExn ScoredOutput)) (i : Nat) :
    ScoredOutput :=
  match tasks[i]? with
  | some (.ok s) => s
  | _ => { score := 0, output := "" }

/-- A provider configuration with the source defaults
(JSON format, temperature 0, max_workers 10). -/
def mPar : ProviderConfig :=
  { model_id := "claude-3-5-sonnet-latest", api_key := some "test-key",
    base_url := none, format_type := FormatType.json, temperature := 0,
    max_workers := 10 }

/-- The same configuration with `max_workers = 1`, forcing the
sequential branch. -/
def mSeq : ProviderConfig :=
  { mPar with max_workers := 1 }

/-- An `infer` call with no overrides in `**kwargs`. -/
def kw0 : InferKwargs :=
  { temperature := none, max_output_tokens := none, top_p := none }

/-- A backend that answers every Anthropic request with one content
block `"out"`. -/
def okBackendA : Request → Except PyExn AnthropicResponse :=
  fun _ => .ok { content := [{ text := "out" }] }

/-- A backend that fails (raises `"boom"`) exactly on requests whose
user prompt is `"b"`, and answers `"out"` otherwise. -/
def failBBackendA : Request → Except PyExn AnthropicResponse :=
  fun req =>
    if Message.mk Role.user "b" ∈ req.messages then
      .error (.backendError "boom")
    else
      .ok { content := [{ text := "out" }] }

/-- A backend that answers every Mistral request with one choice whose
message content is `"out"`. -/
def okBackendM : Request → Except PyExn MistralResponse :=
  fun _ => .ok { choices := [{ message := { content := "out" } }] }

/-- A Mistral backend failing exactly on user prompt `"b"`. -/
def failBBackendM : Request → Except PyExn MistralResponse :=
  fun req =>
    if Message.mk Role.user "b" ∈ req.messages then
      .error (.backendError "boom")
    else
      .ok { choices := [{ message := { content := "out" } }] }

/-- The constant success value produced by the two `okBackend`s. -/
def outScored : ScoredOutput :=
  { score := 1, output := "out" }

/-- The per-prompt wrapper the Anthropic adapter raises when the
backend raises `"boom"`. -/
def boomWrappedA : PyExn :=
  .inferenceRuntimeError "Anthropic API error: boom"
    (some (.backendError "boom"))

/-- The parallel-path wrapper around `boomWrappedA`. -/
def boomParallelA : PyExn :=
  .inferenceRuntimeError "Parallel inference error: Anthropic API error: boom"
    (some boomWrappedA)

/-- The per-prompt wrapper the Mistral adapter raises when the backend
raises `"boom"`. -/
def boomWrappedM : PyExn :=
  .inferenceRuntimeError "Mistral API error: boom"
    (some (.backendError "boom"))

/-! ## Generic lemmas about the batch body -/

/-- Sequential branch, all-success case: one call and one singleton
yield per prompt, in input order, no exception. -/
theorem runSequential_allOk
    (process : String → Request × Except PyExn ScoredOutput)
    (f : String → ScoredOutput) :
    ∀ prompts : List String,
    (∀ p ∈ prompts, (process p).2 = .ok (f p)) →
    runSequential process prompts =
      (prompts.map (fun p => (process p).1),
       prompts.map (fun p => [f p]), none) := by
  intro prompts
  induction prompts with
  | nil => intro _; rfl
  | cons p rest ih =>
      intro h
      have hp := h p (List.mem_cons_self p rest)
      have hrest := ih (fun q hq => h q (List.mem_cons_of_mem p hq))
      simp [runSequential, hp, hrest]

/-- Sequential branch, first-failure case: the prompts before the first
failing prompt are each called and yielded; the failing prompt is called
and its wrapped exception ends the generator; later prompts are never
called. -/
theorem runSequential_firstError
    (process : String → Request × Except PyExn ScoredOutput)
    (f : String → ScoredOutput) (p : String) (e : PyExn) :
    ∀ pre rest : List String,
    (∀ q ∈ pre, (process q).2 = .ok (f q)) →
    (process p).2 = .error e →
    runSequential process (pre ++ p :: rest) =
      (pre.map (fun q => (process q).1) ++ [(process p).1],
       pre.map (fun q => [f q]), some e) := by
  intro pre
  induction pre with
  | nil =>
      intro rest _ hp
      simp [runSequential, hp]
  | cons q pre' ih =>
      intro rest hpre hp
      have hq := hpre q (List.mem_cons_self q pre')
      have hrest := ih rest (fun r hr => hpre r (List.mem_cons_of_mem q hr)) hp
      simp [runSequential, hq, hrest]

/-- Yield loop over indices whose slots are all filled: one singleton
yield per index, no exception. -/
theorem yieldLoop_allSome (buf : Nat → Option ScoredOutput)
    (g : Nat → ScoredOutput) :
    ∀ idxs : List Nat,
    (∀ j ∈ idxs, buf j = some (g j)) →
    yieldLoop buf idxs = (idxs.map (fun j => [g j]), none) := by
  intro idxs
  induction idxs with
  | nil => intro _; rfl
  | cons j rest ih =>
      intro h
      have hj := h j (List.mem_cons_self j rest)
      have hrest := ih (fun i hi => h i (List.mem_cons_of_mem j hi))
      simp [yieldLoop, hj, hrest]

/-- Collection loop, all-success case: no exception, and the final
buffer holds the task value at every index of the completion order,
leaving other slots untouched. -/
theorem asCompletedLoop_allOk (tasks : List (Except PyExn ScoredOutput))
    (g : Nat → ScoredOutput) :
    ∀ (order : List Nat) (buf : Nat → Option ScoredOutput),
    (∀ i ∈ order, tasks[i]? = some (.ok (g i))) →
    (asCompletedLoop tasks order buf).2 = none ∧
    ∀ j, (asCompletedLoop tasks order buf).1 j =
      if j ∈ order then some (g j) else buf j := by
  intro order
  induction order with
  | nil =>
      intro buf _
      simp [asCompletedLoop]
  | cons i rest ih =>
      intro buf h
      have hi := h i (List.mem_cons_self i rest)
      have hrest := ih (fun j => if j = i then some (g i) else buf j)
        (fun q hq => h q (List.mem_cons_of_mem i hq))
      refine ⟨?_, ?_⟩
      · simpa [asCompletedLoop, hi] using hrest.1
      · intro j
        have hj := hrest.2 j
        by_cases hjr : j ∈ rest
        · simp [asCompletedLoop, hi, hj, hjr]
        · by_cases hji : j = i
          · subst hji
            simp [asCompletedLoop, hi, hj, hjr]
          · simp [asCompletedLoop, hi, hj, hjr, hji]

/-- Collection loop, failure case: if some index in the completion order
holds a failed task, the loop raises `InferenceRuntimeError('Parallel
inference error: ...')` whose original is that task's exception. -/
theorem asCompletedLoop_error (tasks : List (Except PyExn ScoredOutput)) :
    ∀ (order : List Nat) (buf : Nat → Option ScoredOutput),
    (∃ i ∈ order, ∃ e, tasks[i]? = some (.error e)) →
    ∃ i ∈ order, ∃ e, tasks[i]? = some (.error e) ∧
      (asCompletedLoop tasks order buf).2 =
        some (.inferenceRuntimeError
          ("Parallel inference error: " ++ e.str) (some e)) := by
  intro order
  induction order with
  | nil =>
      rintro buf ⟨i, hi, _⟩
      exact absurd hi (List.not_mem_nil i)
  | cons i rest ih =>
      rintro buf ⟨i₀, hi₀, e₀, he₀⟩
      cases hti : tasks[i]? with
      | none =>
          have hi₀r : i₀ ∈ rest := by
            rcases List.mem_cons.mp hi₀ with h | h
            · subst h; rw [hti] at he₀; exact absurd he₀ (by simp)
            · exact h
          obtain ⟨i', hi', e', he', hres⟩ := ih buf ⟨i₀, hi₀r, e₀, he₀⟩
          exact ⟨i', List.mem_cons_of_mem i hi', e', he',
            by simpa [asCompletedLoop, hti] using hres⟩
      | some t =>
          cases t with
          | ok s =>
              have hi₀r : i₀ ∈ rest := by
                rcases List.mem_cons.mp hi₀ with h | h
                · subst h; rw [hti] at he₀
                  exact absurd he₀ (by simp)
                · exact h
              obtain ⟨i', hi', e', he', hres⟩ :=
                ih (fun j => if j = i then some s else buf j)
                  ⟨i₀, hi₀r, e₀, he₀⟩
              exact ⟨i', List.mem_cons_of_mem i hi', e', he',
                by simpa [asCompletedLoop, hti] using hres⟩
          | error e =>
              exact ⟨i, List.mem_cons_self i rest, e, hti,
                by simp [asCompletedLoop, hti]⟩

/-- The parallel branch always issues one request per prompt (all
futures are submitted before any result is collected). -/
theorem runParallel_calls
    (process : String → Request × Except PyExn ScoredOutput)
    (prompts : List String) (order : List Nat) :
    (runParallel process prompts order).1 =
      prompts.map (fun p => (process p).1) := by
  cases h : (asCompletedLoop (prompts.map (fun p => (process p).2)) order
      (fun _ => none)).2 with
  | none => simp [runParallel, h]
  | some e => simp [runParallel, h]

/-- Parallel branch, all-success case under any completion order that is
a permutation of the index range: one call per prompt, one singleton
yield per prompt in input order, no exception. -/
theorem runParallel_allOk
    (process : String → Request × Except PyExn ScoredOutput)
    (f : String → ScoredOutput) (prompts : List String) (order : List Nat)
    (horder : order.Perm (List.range prompts.length))
    (hok : ∀ p ∈ prompts, (process p).2 = .ok (f p)) :
    runParallel process prompts order =
      (prompts.map (fun p => (process p).1),
       prompts.map (fun p => [f p]), none) := by
  set tasks := prompts.map (fun p => (process p).2) with htasks
  have hmem : ∀ i, i ∈ order ↔ i < prompts.length := by
    intro i
    rw [horder.mem_iff, List.mem_range]
  have hg : ∀ i ∈ order,
      tasks[i]? = some (.ok (f (prompts.getD i ""))) := by
    intro i hi
    have hlt : i < prompts.length := (hmem i).mp hi
    have : prompts[i]? = some prompts[i] := List.getElem?_eq_getElem hlt
    simp [htasks, List.getElem?_map, this,
      hok prompts[i] (List.getElem_mem hlt),
      List.getD_eq_getElem?_getD, this]
  obtain ⟨hsnd, hbuf⟩ := asCompletedLoop_allOk tasks
    (fun i => f (prompts.getD i "")) order (fun _ => none) hg
  have hyield : yieldLoop
      (asCompletedLoop tasks order (fun _ => none)).1
      (List.range prompts.length) =
      ((List.range prompts.length).map
        (fun j => [f (prompts.getD j "")]), none) := by
    apply yieldLoop_allSome
    intro j hj
    have hjo : j ∈ order := (hmem j).mpr (List.mem_range.mp hj)
    simp [hbuf j, hjo]
  have hrange : (List.range prompts.length).map
      (fun j => [f (prompts.getD j "")]) =
      prompts.map (fun p => [f p]) := by
    apply List.ext_getElem?
    intro k
    by_cases hk : k < prompts.length
    · have h1 : prompts[k]? = some prompts[k] := List.getElem?_eq_getElem hk
      simp [List.getElem?_map, List.getElem?_range hk, h1,
        List.getD_eq_getElem?_getD]
    · have hle : prompts.length ≤ k := Nat.le_of_not_lt hk
      have h1 : (List.range prompts.length)[k]? = none :=
        List.getElem?_eq_none (by simpa using hle)
      have h2 : prompts[k]? = none := List.getElem?_eq_none hle
      simp [List.getElem?_map, h1, h2]
  rw [hrange] at hyield
  simp [runParallel, ← htasks, hsnd, hyield]

/-- Parallel branch, failure case: if processing any prompt fails, the
whole call raises the doubly-wrapped parallel error and yields nothing
(the raise happens during collection, before the first yield). -/
theorem runParallel_error
    (process : String → Request × Except PyExn ScoredOutput)
    (prompts : List String) (order : List Nat)
    (horder : order.Perm (List.range prompts.length))
    (hfail : ∃ p ∈ prompts, ∃ e, (process p).2 = .error e) :
    ∃ e, (∃ p ∈ prompts, (process p).2 = .error e) ∧
      (runParallel process prompts order).2.1 = [] ∧
      (runParallel process prompts order).2.2 =
        some (.inferenceRuntimeError
          ("Parallel inference error: " ++ e.str) (some e)) := by
  set tasks := prompts.map (fun p => (process p).2) with htasks
  obtain ⟨p, hp, e, he⟩ := hfail
  obtain ⟨i, hlt, hip⟩ := List.getElem_of_mem hp
  have hi : tasks[i]? = some (.error e) := by
    have : prompts[i]? = some prompts[i] := List.getElem?_eq_getElem hlt
    simp [htasks, List.getElem?_map, this, hip, he]
  have hio : i ∈ order := by
    rw [horder.mem_iff, List.mem_range]
    exact hlt
  obtain ⟨i', hi', e', he', hres⟩ := asCompletedLoop_error tasks order
    (fun _ => none) ⟨i, hio, e, hi⟩
  have hi'lt : i' < prompts.length := by
    have := (horder.mem_iff).mp hi'
    exact List.mem_range.mp this
  have hp' : (process prompts[i']).2 = .error e' := by
    have h1 : prompts[i']? = some prompts[i'] := List.getElem?_eq_getElem hi'lt
    rw [htasks] at he'
    rw [List.getElem?_map, h1] at he'
    simpa using he'
  refine ⟨e', ⟨prompts[i'], List.getElem_mem hi'lt, hp'⟩, ?_, ?_⟩
  · simp [runParallel, ← htasks, hres]
  · simp [runParallel, ← htasks, hres]

/-- Whole batch body, all-success case (either branch): yields follow
input order and count, no exception, one call per prompt. -/
theorem inferGeneric_allOk (maxWorkers : Int)
    (process : String → Request × Except PyExn ScoredOutput)
    (f : String → ScoredOutput) (prompts : List String) (order : List Nat)
    (horder : order.Perm (List.range prompts.length))
    (hok : ∀ p ∈ prompts, (process p).2 = .ok (f p)) :
    (inferGeneric maxWorkers process prompts order).yielded =
      prompts.map (fun p => [f p]) ∧
    (inferGeneric maxWorkers process prompts order).error = none ∧
    (inferGeneric maxWorkers process prompts order).calls =
      prompts.map (fun p => (process p).1) := by
  by_cases hbr : 1 < prompts.length ∧ 1 < maxWorkers
  · have h := runParallel_allOk process f prompts order horder hok
    simp [inferGeneric, hbr, h]
  · have h := runSequential_allOk process f prompts hok
    simp [inferGeneric, hbr, h]

/-- Whole batch body, parallel branch with a failing prompt: the call
raises and nothing at all is yielded. -/
theorem inferGeneric_parallel_error (maxWorkers : Int)
    (process : String → Request × Except PyExn ScoredOutput)
    (prompts : List String) (order : List Nat)
    (h1 : 1 < prompts.length) (h2 : 1 < maxWorkers)
    (horder : order.Perm (List.range prompts.length))
    (hfail : ∃ p ∈ prompts, ∃ e, (process p).2 = .error e) :
    (inferGeneric maxWorkers process prompts order).yielded = [] ∧
    ∃ e, (∃ p ∈ prompts, (process p).2 = .error e) ∧
      (inferGeneric maxWorkers process prompts order).error =
        some (.inferenceRuntimeError
          ("Parallel inference error: " ++ e.str) (some e)) := by
  obtain ⟨e, hmem, hy, he⟩ := runParallel_error process prompts order horder hfail
  have hbr : 1 < prompts.length ∧ 1 < maxWorkers := ⟨h1, h2⟩
  refine ⟨?_, e, hmem, ?_⟩
  · simp [inferGeneric, hbr, hy]
  · simp [inferGeneric, hbr, he]

/-- Whole batch body, sequential branch with a first failing prompt:
the outputs of the prompts before it have already been yielded when the
generator raises the per-prompt wrapped exception. -/
theorem inferGeneric_seq_firstError (maxWorkers : Int)
    (process : String → Request × Except PyExn ScoredOutput)
    (f : String → ScoredOutput) (pre : List String) (p : String)
    (rest : List String) (e : PyExn) (order : List Nat)
    (hw : ¬(1 < (pre ++ p :: rest).length ∧ 1 < maxWorkers))
    (hpre : ∀ q ∈ pre, (process q).2 = .ok (f q))
    (hp : (process p).2 = .error e) :
    (inferGeneric maxWorkers process (pre ++ p :: rest) order).yielded =
      pre.map (fun q => [f q]) ∧
    (inferGeneric maxWorkers process (pre ++ p :: rest) order).error =
      some e ∧
    (inferGeneric maxWorkers process (pre ++ p :: rest) order).calls =
      pre.map (fun q => (process q).1) ++ [(process p).1] := by
  have h := runSequential_firstError process f p e pre rest hpre hp
  refine ⟨?_, ?_, ?_⟩ <;>
    · unfold inferGeneric
      rw [if_neg hw, h]

/-- The sequential branch's terminating exception is always the one
raised while processing some prompt of the batch. -/
theorem runSequential_error_mem
    (process : String → Request × Except PyExn ScoredOutput) (e : PyExn) :
    ∀ prompts : List String,
    (runSequential process prompts).2.2 = some e →
    ∃ p ∈ prompts, (process p).2 = .error e := by
  intro prompts
  induction prompts with
  | nil => intro h; simp [runSequential] at h
  | cons p rest ih =>
      intro h
      cases hp : (process p).2 with
      | error e' =>
          rw [runSequential] at h
          simp [hp] at h
          exact ⟨p, List.mem_cons_self p rest, by rw [hp, h]⟩
      | ok s =>
          rw [runSequential] at h
          simp [hp] at h
          obtain ⟨q, hq, hqe⟩ := ih h
          exact ⟨q, List.mem_cons_of_mem p hq, hqe⟩

/-- The collection loop's exception, when present, is the parallel
wrapper around the exception of some failed task in the completion
order. -/
theorem asCompletedLoop_error_shape
    (tasks : List (Except PyExn ScoredOutput)) (err : PyExn) :
    ∀ (order : List Nat) (buf : Nat → Option ScoredOutput),
    (asCompletedLoop tasks order buf).2 = some err →
    ∃ i ∈ order, ∃ e, tasks[i]? = some (.error e) ∧
      err = .inferenceRuntimeError
        ("Parallel inference error: " ++ e.str) (some e) := by
  intro order
  induction order with
  | nil => intro buf h; simp [asCompletedLoop] at h
  | cons i rest ih =>
      intro buf h
      cases hti : tasks[i]? with
      | none =>
          rw [asCompletedLoop] at h
          simp [hti] at h
          obtain ⟨i', hi', he⟩ := ih buf h
          exact ⟨i', List.mem_cons_of_mem i hi', he⟩
      | some t =>
          cases t with
          | ok s =>
              rw [asCompletedLoop] at h
              simp [hti] at h
              obtain ⟨i', hi', he⟩ :=
                ih (fun j => if j = i then some s else buf j) h
              exact ⟨i', List.mem_cons_of_mem i hi', he⟩
          | error e =>
              rw [asCompletedLoop] at h
              simp [hti] at h
              exact ⟨i, List.mem_cons_self i rest, e, hti, h.symm⟩

/-- Under a completion order that is a permutation of the index range,
the parallel branch's exception, when present, is always the parallel
wrapper around the exception raised while processing some prompt (the
defensive `None`-slot check never fires). -/
theorem runParallel_error_shape
    (process : String → Request × Except PyExn ScoredOutput)
    (prompts : List String) (order : List Nat) (err : PyExn)
    (horder : order.Perm (List.range prompts.length))
    (herr : (runParallel process prompts order).2.2 = some err) :
    ∃ e, (∃ p ∈ prompts, (process p).2 = .error e) ∧
      err = .inferenceRuntimeError
        ("Parallel inference error: " ++ e.str) (some e) := by
  set tasks := prompts.map (fun p => (process p).2) with htasks
  cases hc : (asCompletedLoop tasks order (fun _ => none)).2 with
  | some e' =>
      have hee : e' = err := by
        have h2 : (runParallel process prompts order).2.2 = some e' := by
          simp [runParallel, ← htasks, hc]
        rw [h2] at herr
        exact Option.some.inj herr
      obtain ⟨i, hio, e, hie, hshape⟩ :=
        asCompletedLoop_error_shape tasks e' order (fun _ => none) hc
      have hilt : i < prompts.length :=
        List.mem_range.mp (horder.mem_iff.mp hio)
      have hp : (process prompts[i]).2 = .error e := by
        have h1 : prompts[i]? = some prompts[i] := List.getElem?_eq_getElem hilt
        rw [htasks, List.getElem?_map, h1] at hie
        simpa using hie
      exact ⟨e, ⟨prompts[i], List.getElem_mem hilt, hp⟩, hee ▸ hshape⟩
  | none =>
      exfalso
      have hnoerr : ∀ i ∈ order, ∀ e, tasks[i]? ≠ some (.error e) := by
        intro i hi e hcontra
        obtain ⟨i', hi', e', he', hres⟩ :=
          asCompletedLoop_error tasks order (fun _ => none) ⟨i, hi, e, hcontra⟩
        rw [hres] at hc
        exact Option.noConfusion hc
      have hok : ∀ i ∈ order, tasks[i]? = some (.ok (taskVal tasks i)) := by
        intro i hi
        have hilt : i < prompts.length :=
          List.mem_range.mp (horder.mem_iff.mp hi)
        have hlen : i < tasks.length := by
          rw [htasks, List.length_map]; exact hilt
        have hsome : tasks[i]? = some tasks[i] := List.getElem?_eq_getElem hlen
        cases ht : tasks[i] with
        | error e => exact absurd (by rw [hsome, ht]) (hnoerr i hi e)
        | ok s => rw [taskVal, hsome, ht]
      obtain ⟨_, hbuf⟩ := asCompletedLoop_allOk tasks (taskVal tasks) order
        (fun _ => none) hok
      have hyield := yieldLoop_allSome
        (asCompletedLoop tasks order (fun _ => none)).1 (taskVal tasks)
        (List.range prompts.length)
        (fun j hj => by
          have hjo : j ∈ order := horder.mem_iff.mpr hj
          simp [hbuf j, hjo])
      have hnone : (runParallel process prompts order).2.2 = none := by
        simp [runParallel, ← htasks, hc, hyield]
      rw [hnone] at herr
      exact Option.noConfusion herr

/-- The request issued by the Anthropic per-prompt processing. -/
theorem anthropic_process_fst (m : ProviderConfig)
    (backend : Request → Except PyExn AnthropicResponse)
    (prompt : String) (config : CallConfig) :
    (AnthropicLanguageModel.process_single_prompt m backend prompt config).1 =
      anthropicRequest m config prompt := rfl

/-- The request issued by the Mistral per-prompt processing. -/
theorem mistral_process_fst (m : ProviderConfig)
    (backend : Request → Except PyExn MistralResponse)
    (prompt : String) (config : CallConfig) :
    (MistralLanguageModel.process_single_prompt m backend prompt config).1 =
      mistralRequest m config prompt := rfl

/-- Successful Anthropic call: score 1, text of the first content
element. -/
theorem anthropic_process_ok (m : ProviderConfig)
    (backend : Request → Except PyExn AnthropicResponse)
    (prompt : String) (config : CallConfig) (resp : AnthropicResponse)
    (c : ContentBlock) (cs : List ContentBlock)
    (hb : backend (anthropicRequest m config prompt) = .ok resp)
    (hc : resp.content = c :: cs) :
    (AnthropicLanguageModel.process_single_prompt m backend prompt config).2 =
      .ok { score := 1, output := c.text } := by
  simp [AnthropicLanguageModel.process_single_prompt, hb, hc]

/-- Successful Mistral call: score 1, content of the first choice's
message. -/
theorem mistral_process_ok (m : ProviderConfig)
    (backend : Request → Except PyExn MistralResponse)
    (prompt : String) (config : CallConfig) (resp : MistralResponse)
    (c : MistralChoice) (cs : List MistralChoice)
    (hb : backend (mistralRequest m config prompt) = .ok resp)
    (hc : resp.choices = c :: cs) :
    (MistralLanguageModel.process_single_prompt m backend prompt config).2 =
      .ok { score := 1, output := c.message.content } := by
  simp [MistralLanguageModel.process_single_prompt, hb, hc]

/-- Any exception of the Anthropic per-prompt processing is the
backend-tagged wrapper directly carrying the underlying exception. -/
theorem anthropic_process_error_shape (m : ProviderConfig)
    (backend : Request → Except PyExn AnthropicResponse)
    (prompt : String) (config : CallConfig) (err : PyExn)
    (h : (AnthropicLanguageModel.process_single_prompt
      m backend prompt config).2 = .error err) :
    ∃ e, err = .inferenceRuntimeError
      ("Anthropic API error: " ++ e.str) (some e) := by
  cases hb : backend (anthropicRequest m config prompt) with
  | error e =>
      simp [AnthropicLanguageModel.process_single_prompt, hb] at h
      exact ⟨e, h.symm⟩
  | ok resp =>
      cases hc : resp.content with
      | nil =>
          simp [AnthropicLanguageModel.process_single_prompt, hb, hc] at h
          exact ⟨.indexError "list index out of range", h.symm⟩
      | cons c cs =>
          simp [AnthropicLanguageModel.process_single_prompt, hb, hc] at h

/-- Any exception of the Mistral per-prompt processing is the
backend-tagged wrapper directly carrying the underlying exception. -/
theorem mistral_process_error_shape (m : ProviderConfig)
    (backend : Request → Except PyExn MistralResponse)
    (prompt : String) (config : CallConfig) (err : PyExn)
    (h : (MistralLanguageModel.process_single_prompt
      m backend prompt config).2 = .error err) :
    ∃ e, err = .inferenceRuntimeError
      ("Mistral API error: " ++ e.str) (some e) := by
  cases hb : backend (mistralRequest m config prompt) with
  | error e =>
      simp [MistralLanguageModel.process_single_prompt, hb] at h
      exact ⟨e, h.symm⟩
  | ok resp =>
      cases hc : resp.choices with
      | nil =>
          simp [MistralLanguageModel.process_single_prompt, hb, hc] at h
          exact ⟨.indexError "list index out of range", h.symm⟩
      | cons c cs =>
          simp [MistralLanguageModel.process_single_prompt, hb, hc] at h

/-- Every request the sequential branch issues is the request built for
some prompt of the batch. -/
theorem runSequential_calls_mem
    (process : String → Request × Except PyExn ScoredOutput) :
    ∀ (prompts : List String) (req : Request),
    req ∈ (runSequential process prompts).1 →
    ∃ p ∈ prompts, req = (process p).1 := by
  intro prompts
  induction prompts with
  | nil => intro req h; simp [runSequential] at h
  | cons p rest ih =>
      intro req h
      cases hp : (process p).2 with
      | error e =>
          rw [runSequential] at h
          simp [hp] at h
          exact ⟨p, List.mem_cons_self p rest, h⟩
      | ok s =>
          rw [runSequential] at h
          simp [hp] at h
          rcases h with h | h
          · exact ⟨p, List.mem_cons_self p rest, h⟩
          · obtain ⟨q, hq, hr⟩ := ih req h
            exact ⟨q, List.mem_cons_of_mem p hq, hr⟩

/-- Every request `infer` issues (either branch) is the request built
for some prompt of the batch. -/
theorem inferGeneric_calls_mem (maxWorkers : Int)
    (process : String → Request × Except PyExn ScoredOutput)
    (prompts : List String) (order : List Nat) (req : Request)
    (h : req ∈ (inferGeneric maxWorkers process prompts order).calls) :
    ∃ p ∈ prompts, req = (process p).1 := by
  by_cases hbr : 1 < prompts.length ∧ 1 < maxWorkers
  · unfold inferGeneric at h
    rw [if_pos hbr] at h
    simp only [runParallel_calls] at h
    obtain ⟨p, hp, hr⟩ := List.mem_map.mp h
    exact ⟨p, hp, hr.symm⟩
  · unfold inferGeneric at h
    rw [if_neg hbr] at h
    exact runSequential_calls_mem process prompts req h

/-! ## Claim theorems -/

/-- C8: Calling `infer` with an empty prompt batch yields zero Scored
Outputs, issues no remote call (the trace of requests is empty for every
backend), creates no worker pool, and raises no error, for both
`AnthropicLanguageModel` and `MistralLanguageModel`. -/
theorem infer_empty_batch :
    ∀ (m : ProviderConfig)
      (bkA : Request → Except PyExn AnthropicResponse)
      (bkM : Request → Except PyExn MistralResponse)
      (kw : InferKwargs) (order : List Nat),
    AnthropicLanguageModel.infer m bkA [] kw order =
      { calls := [], yielded := [], error := none, poolWorkers := none } ∧
    MistralLanguageModel.infer m bkM [] kw order =
      { calls := [], yielded := [], error := none, poolWorkers := none } := by
  intro m bkA bkM kw order
  constructor
  · show inferGeneric m.max_workers _ [] order = _
    unfold inferGeneric
    rw [if_neg (by simp)]
    rfl
  · show inferGeneric m.max_workers _ [] order = _
    unfold inferGeneric
    rw [if_neg (by simp)]
    rfl

/-- C9: With no `max_output_tokens` override, the Anthropic adapter
sends `max_tokens = 4096` while the Mistral adapter sends `max_tokens`
unset (`None`); this holds for every provider configuration (there is no
instance-level maximum-output-tokens field) and every prompt. -/
theorem process_max_tokens_default :
    ∀ (m : ProviderConfig) (kw : InferKwargs) (prompt : String),
    kw.max_output_tokens = none →
    (anthropicRequest m (buildConfig m.temperature kw) prompt).max_tokens =
      some 4096 ∧
    (mistralRequest m (buildConfig m.temperature kw) prompt).max_tokens =
      none := by
  intro m kw prompt h
  constructor <;> simp [anthropicRequest, mistralRequest, buildConfig, h]

/-- C9 witness: the default configuration with empty kwargs. -/
theorem process_max_tokens_default_witness :
    (anthropicRequest mPar (buildConfig mPar.temperature kw0) "hi").max_tokens =
      some 4096 ∧
    (mistralRequest mPar (buildConfig mPar.temperature kw0) "hi").max_tokens =
      none :=
  process_max_tokens_default mPar kw0 "hi" rfl

/-- C10: For every prompt, the message sequence sent to the backend is
exactly one system directive naming the configured output format
followed by the user prompt; for a format that is neither JSON nor YAML
only the user prompt would be sent (vacuously true here: the format enum
has exactly the values JSON and YAML). -/
theorem process_message_sequence :
    ∀ (fmt : FormatType) (prompt : String),
    (fmt = FormatType.json →
      buildMessages fmt prompt =
        [{ role := Role.system, content :=
            "You are a helpful assistant that responds in JSON format." },
         { role := Role.user, content := prompt }]) ∧
    (fmt = FormatType.yaml →
      buildMessages fmt prompt =
        [{ role := Role.system, content :=
            "You are a helpful assistant that responds in YAML format." },
         { role := Role.user, content := prompt }]) ∧
    (fmt ≠ FormatType.json → fmt ≠ FormatType.yaml →
      buildMessages fmt prompt = [{ role := Role.user, content := prompt }]) := by
  intro fmt prompt
  cases fmt with
  | json =>
      refine ⟨fun _ => ?_, fun h => (by cases h), fun h1 _ => absurd rfl h1⟩
      simp [buildMessages, systemMessage]
  | yaml =>
      refine ⟨fun h => (by cases h), fun _ => ?_, fun _ h2 => absurd rfl h2⟩
      simp [buildMessages, systemMessage]

/-- C10 witness: the JSON directive precedes the user prompt. -/
theorem process_message_sequence_witness :
    buildMessages FormatType.json "hi" =
      [{ role := Role.system, content :=
          "You are a helpful assistant that responds in JSON format." },
       { role := Role.user, content := "hi" }] :=
  (process_message_sequence FormatType.json "hi").1 rfl

/-- C7: Every Scored Output of a successful remote call has the constant
score 1.0 and its output text is the first content element of the
backend response (first content block's text for Anthropic, first
choice's message content for Mistral). -/
theorem process_score_first_content :
    ∀ (m : ProviderConfig) (config : CallConfig) (prompt : String),
    (∀ (backend : Request → Except PyExn AnthropicResponse)
       (resp : AnthropicResponse) (c : ContentBlock) (cs : List ContentBlock),
      backend (anthropicRequest m config prompt) = .ok resp →
      resp.content = c :: cs →
      (AnthropicLanguageModel.process_single_prompt m backend prompt config).2 =
        .ok { score := 1, output := c.text }) ∧
    (∀ (backend : Request → Except PyExn MistralResponse)
       (resp : MistralResponse) (c : MistralChoice) (cs : List MistralChoice),
      backend (mistralRequest m config prompt) = .ok resp →
      resp.choices = c :: cs →
      (MistralLanguageModel.process_single_prompt m backend prompt config).2 =
        .ok { score := 1, output := c.message.content }) := by
  intro m config prompt
  exact ⟨fun backend resp c cs hb hc =>
      anthropic_process_ok m backend prompt config resp c cs hb hc,
    fun backend resp c cs hb hc =>
      mistral_process_ok m backend prompt config resp c cs hb hc⟩

/-- C7 witness: the constant backends produce score 1 and the first
content element's text. -/
theorem process_score_first_content_witness :
    (AnthropicLanguageModel.process_single_prompt mPar okBackendA "hi"
      (buildConfig mPar.temperature kw0)).2 =
      .ok { score := 1, output := "out" } ∧
    (MistralLanguageModel.process_single_prompt mPar okBackendM "hi"
      (buildConfig mPar.temperature kw0)).2 =
      .ok { score := 1, output := "out" } :=
  ⟨(process_score_first_content mPar (buildConfig mPar.temperature kw0) "hi").1
      okBackendA { content := [{ text := "out" }] } { text := "out" } [] rfl rfl,
   (process_score_first_content mPar (buildConfig mPar.temperature kw0) "hi").2
      okBackendM { choices := [{ message := { content := "out" } }] }
      { message := { content := "out" } } [] rfl rfl⟩

/-- C5: The parallel worker-pool path is taken iff batch size > 1 and
`max_workers > 1`, with the pool sized `min(max_workers, batch size)`;
otherwise execution is exactly the sequential loop over the prompts in
input order (no pool is created), for both providers. -/
theorem infer_parallel_condition :
    ∀ (m : ProviderConfig)
      (bkA : Request → Except PyExn AnthropicResponse)
      (bkM : Request → Except PyExn MistralResponse)
      (prompts : List String) (kw : InferKwargs) (order : List Nat),
    (1 < prompts.length ∧ 1 < m.max_workers →
      (AnthropicLanguageModel.infer m bkA prompts kw order).poolWorkers =
        some (min m.max_workers (prompts.length : Int)) ∧
      (MistralLanguageModel.infer m bkM prompts kw order).poolWorkers =
        some (min m.max_workers (prompts.length : Int))) ∧
    (¬(1 < prompts.length ∧ 1 < m.max_workers) →
      AnthropicLanguageModel.infer m bkA prompts kw order =
        { calls := (runSequential (fun p =>
            AnthropicLanguageModel.process_single_prompt m bkA p
              (buildConfig m.temperature kw)) prompts).1,
          yielded := (runSequential (fun p =>
            AnthropicLanguageModel.process_single_prompt m bkA p
              (buildConfig m.temperature kw)) prompts).2.1,
          error := (runSequential (fun p =>
            AnthropicLanguageModel.process_single_prompt m bkA p
              (buildConfig m.temperature kw)) prompts).2.2,
          poolWorkers := none } ∧
      MistralLanguageModel.infer m bkM prompts kw order =
        { calls := (runSequential (fun p =>
            MistralLanguageModel.process_single_prompt m bkM p
              (buildConfig m.temperature kw)) prompts).1,
          yielded := (runSequential (fun p =>
            MistralLanguageModel.process_single_prompt m bkM p
              (buildConfig m.temperature kw)) prompts).2.1,
          error := (runSequential (fun p =>
            MistralLanguageModel.process_single_prompt m bkM p
              (buildConfig m.temperature kw)) prompts).2.2,
          poolWorkers := none }) := by
  intro m bkA bkM prompts kw order
  constructor
  · intro h
    constructor
    · show (inferGeneric m.max_workers _ prompts order).poolWorkers = _
      unfold inferGeneric
      rw [if_pos h]
    · show (inferGeneric m.max_workers _ prompts order).poolWorkers = _
      unfold inferGeneric
      rw [if_pos h]
  · intro h
    constructor
    · show inferGeneric m.max_workers _ prompts order = _
      unfold inferGeneric
      rw [if_neg h]
    · show inferGeneric m.max_workers _ prompts order = _
      unfold inferGeneric
      rw [if_neg h]

/-- C5 witness: batch of 2 with default workers 10 creates a pool of
min(10, 2) = 2. -/
theorem infer_parallel_condition_witness :
    (AnthropicLanguageModel.infer mPar okBackendA ["a", "c"] kw0 [0, 1]).poolWorkers =
      some 2 ∧
    (MistralLanguageModel.infer mPar okBackendM ["a", "c"] kw0 [0, 1]).poolWorkers =
      some 2 := by
  have h := (infer_parallel_condition mPar okBackendA okBackendM ["a", "c"]
    kw0 [0, 1]).1 (by decide)
  simpa using h

/-- C6: For every `infer` call, every request actually sent to the
backend uses the explicitly present call-level overrides over the
instance defaults: its temperature is the override when present else the
instance temperature, its top-p is passed through exactly as given
(unset stays unset, never defaulted), and max-tokens follows the
override when present (falling back to 4096 for Anthropic, unset for
Mistral). -/
theorem infer_call_overrides :
    ∀ (m : ProviderConfig)
      (bkA : Request → Except PyExn AnthropicResponse)
      (bkM : Request → Except PyExn MistralResponse)
      (prompts : List String) (kw : InferKwargs) (order : List Nat),
    (∀ req ∈ (AnthropicLanguageModel.infer m bkA prompts kw order).calls,
      req.temperature = kw.temperature.getD m.temperature ∧
      req.top_p = kw.top_p ∧
      req.max_tokens = some (kw.max_output_tokens.getD 4096)) ∧
    (∀ req ∈ (MistralLanguageModel.infer m bkM prompts kw order).calls,
      req.temperature = kw.temperature.getD m.temperature ∧
      req.top_p = kw.top_p ∧
      req.max_tokens = kw.max_output_tokens) := by
  intro m bkA bkM prompts kw order
  constructor
  · intro req hreq
    obtain ⟨p, _, hr⟩ := inferGeneric_calls_mem m.max_workers _ prompts order
      req hreq
    rw [hr, anthropic_process_fst]
    refine ⟨?_, ?_, ?_⟩ <;> simp [anthropicRequest, buildConfig]
  · intro req hreq
    obtain ⟨p, _, hr⟩ := inferGeneric_calls_mem m.max_workers _ prompts order
      req hreq
    rw [hr, mistral_process_fst]
    refine ⟨?_, ?_, ?_⟩ <;> simp [mistralRequest, buildConfig]

/-- C6 witness: the single request of a singleton batch with empty
kwargs. -/
theorem infer_call_overrides_witness :
    ((anthropicRequest mPar (buildConfig mPar.temperature kw0) "a").temperature =
        kw0.temperature.getD mPar.temperature ∧
      (anthropicRequest mPar (buildConfig mPar.temperature kw0) "a").top_p =
        kw0.top_p ∧
      (anthropicRequest mPar (buildConfig mPar.temperature kw0) "a").max_tokens =
        some (kw0.max_output_tokens.getD 4096)) ∧
    ((mistralRequest mPar (buildConfig mPar.temperature kw0) "a").temperature =
        kw0.temperature.getD mPar.temperature ∧
      (mistralRequest mPar (buildConfig mPar.temperature kw0) "a").top_p =
        kw0.top_p ∧
      (mistralRequest mPar (buildConfig mPar.temperature kw0) "a").max_tokens =
        kw0.max_output_tokens) := by
  have h := infer_call_overrides mPar okBackendA okBackendM ["a"] kw0 []
  exact ⟨h.1 (anthropicRequest mPar (buildConfig mPar.temperature kw0) "a")
      (by decide),
    h.2 (mistralRequest mPar (buildConfig mPar.temperature kw0) "a")
      (by decide)⟩

/-- C3 counterexample: even with a discoverable environment credential,
construction with no explicit api_key fails with the configuration
error, for both providers — refuting the claim that an environment
credential makes construction succeed. -/
theorem init_env_credential_cex :
    anthropicInit true (some "sk-env-key") "claude-3-5-sonnet-latest" none
        none FormatType.json 0 10 =
      .error (.inferenceConfigError "API key not provided for Anthropic.") ∧
    mistralInit true (some "sk-env-key") "mistral-large-latest" none
        none FormatType.json 0 10 =
      .error (.inferenceConfigError "API key not provided for Mistral.") :=
  ⟨rfl, rfl⟩

/-- C3 amended: construction fails with ConfigurationError exactly when
the backend's client package is unavailable or the explicit api_key is
falsy (absent or empty); the environment is never consulted, so the
outcome is identical for every environment value, and the failure is
decided before the client handle is created (no network call). -/
theorem init_config_error_amended :
    ∀ (avail : Bool) (env₁ env₂ : Option String) (mid : String)
      (key : Option String) (burl : Option String) (fmt : FormatType)
      (t : Rat) (w : Int),
    anthropicInit avail env₁ mid key burl fmt t w =
      anthropicInit avail env₂ mid key burl fmt t w ∧
    mistralInit avail env₁ mid key burl fmt t w =
      mistralInit avail env₂ mid key burl fmt t w ∧
    ((∃ msg, anthropicInit avail env₁ mid key burl fmt t w =
        .error (.inferenceConfigError msg)) ↔
      (avail = false ∨ key = none ∨ key = some "")) ∧
    ((∃ msg, mistralInit avail env₁ mid key burl fmt t w =
        .error (.inferenceConfigError msg)) ↔
      (avail = false ∨ key = none ∨ key = some "")) := by
  intro avail env₁ env₂ mid key burl fmt t w
  have hfalsy : apiKeyFalsy key = true ↔ (key = none ∨ key = some "") := by
    cases key with
    | none => simp [apiKeyFalsy]
    | some s => simp [apiKeyFalsy]
  refine ⟨rfl, rfl, ?_, ?_⟩
  · cases avail with
    | false =>
        constructor
        · intro _; exact Or.inl rfl
        · intro _; exact ⟨_, rfl⟩
    | true =>
        cases hk : apiKeyFalsy key with
        | true =>
            constructor
            · intro _
              exact Or.inr (hfalsy.mp hk)
            · intro _
              have h1 : anthropicInit true env₁ mid key burl fmt t w =
                  .error (.inferenceConfigError
                    "API key not provided for Anthropic.") := by
                simp [anthropicInit, hk]
              exact ⟨_, h1⟩
        | false =>
            constructor
            · rintro ⟨msg, hmsg⟩
              simp [anthropicInit, hk] at hmsg
            · rintro (h | h)
              · exact absurd h (by simp)
              · exact absurd (hfalsy.mpr h) (by simp [hk])
  · cases avail with
    | false =>
        constructor
        · intro _; exact Or.inl rfl
        · intro _; exact ⟨_, rfl⟩
    | true =>
        cases hk : apiKeyFalsy key with
        | true =>
            constructor
            · intro _
              exact Or.inr (hfalsy.mp hk)
            · intro _
              have h1 : mistralInit true env₁ mid key burl fmt t w =
                  .error (.inferenceConfigError
                    "API key not provided for Mistral.") := by
                simp [mistralInit, hk]
              exact ⟨_, h1⟩
        | false =>
            constructor
            · rintro ⟨msg, hmsg⟩
              simp [mistralInit, hk] at hmsg
            · rintro (h | h)
              · exact absurd h (by simp)
              · exact absurd (hfalsy.mpr h) (by simp [hk])

/-- C2: On a batch where every prompt succeeds, `infer` yields exactly
one Scored Output per prompt — the result of processing the prompt at
the same position — in input order, for every completion order of the
worker pool (any permutation of the index range) and in the sequential
branch alike, with no error, for both providers. -/
theorem infer_success_count_order :
    ∀ (m : ProviderConfig) (kw : InferKwargs) (prompts : List String)
      (order : List Nat)
      (bkA : Request → Except PyExn AnthropicResponse)
      (fA : String → ScoredOutput)
      (bkM : Request → Except PyExn MistralResponse)
      (fM : String → ScoredOutput),
    order.Perm (List.range prompts.length) →
    (∀ p ∈ prompts,
      (AnthropicLanguageModel.process_single_prompt m bkA p
        (buildConfig m.temperature kw)).2 = .ok (fA p)) →
    (∀ p ∈ prompts,
      (MistralLanguageModel.process_single_prompt m bkM p
        (buildConfig m.temperature kw)).2 = .ok (fM p)) →
    ((AnthropicLanguageModel.infer m bkA prompts kw order).yielded =
        prompts.map (fun p => [fA p]) ∧
      (AnthropicLanguageModel.infer m bkA prompts kw order).error = none) ∧
    ((MistralLanguageModel.infer m bkM prompts kw order).yielded =
        prompts.map (fun p => [fM p]) ∧
      (MistralLanguageModel.infer m bkM prompts kw order).error = none) := by
  intro m kw prompts order bkA fA bkM fM horder hokA hokM
  have hA := inferGeneric_allOk m.max_workers
    (fun p => AnthropicLanguageModel.process_single_prompt m bkA p
      (buildConfig m.temperature kw)) fA prompts order horder hokA
  have hM := inferGeneric_allOk m.max_workers
    (fun p => MistralLanguageModel.process_single_prompt m bkM p
      (buildConfig m.temperature kw)) fM prompts order horder hokM
  exact ⟨⟨hA.1, hA.2.1⟩, ⟨hM.1, hM.2.1⟩⟩

/-- C2 witness: batch of two prompts executed with the reversed
completion order still yields the two outputs in input order. -/
theorem infer_success_count_order_witness :
    ((AnthropicLanguageModel.infer mPar okBackendA ["a", "c"] kw0 [1, 0]).yielded =
        [[outScored], [outScored]] ∧
      (AnthropicLanguageModel.infer mPar okBackendA ["a", "c"] kw0 [1, 0]).error =
        none) ∧
    ((MistralLanguageModel.infer mPar okBackendM ["a", "c"] kw0 [1, 0]).yielded =
        [[outScored], [outScored]] ∧
      (MistralLanguageModel.infer mPar okBackendM ["a", "c"] kw0 [1, 0]).error =
        none) := by
  have h := infer_success_count_order mPar kw0 ["a", "c"] [1, 0]
    okBackendA (fun _ => outScored) okBackendM (fun _ => outScored)
    (by decide)
    (by intro p hp; fin_cases hp <;> rfl)
    (by intro p hp; fin_cases hp <;> rfl)
  simpa using h

/-- C1 counterexample: batch of 2 prompts on the sequential path
(`max_workers = 1`), where only the second prompt fails: `infer` raises
`InferenceRuntimeError`, but the first prompt's Scored Output has
already been yielded — the call does produce partial results, refuting
the no-partial-results claim for the sequential path. -/
theorem infer_seq_partial_yield_cex :
    (AnthropicLanguageModel.infer mSeq failBBackendA ["a", "b"] kw0 []).error =
      some boomWrappedA ∧
    (AnthropicLanguageModel.infer mSeq failBBackendA ["a", "b"] kw0 []).yielded =
      [[outScored]] ∧
    (AnthropicLanguageModel.infer mSeq failBBackendA ["a", "b"] kw0 []).yielded ≠
      [] := by
  refine ⟨rfl, rfl, ?_⟩
  intro h
  rw [show (AnthropicLanguageModel.infer mSeq failBBackendA ["a", "b"] kw0
    []).yielded = [[outScored]] from rfl] at h
  exact List.noConfusion h

/-- C1 amended: in the parallel path (batch > 1 and workers > 1), a
failure while processing any prompt makes `infer` raise
`InferenceRuntimeError` with no Scored Output yielded at all; in the
sequential path `infer` raises upon reaching the first failing prompt,
but the outputs of the prompts before it have already been yielded (one
per preceding successful prompt), so the no-partial-results guarantee
holds only for the parallel path or when the failing prompt is first. -/
theorem infer_failfast_amended :
    ∀ (m : ProviderConfig) (kw : InferKwargs) (order : List Nat)
      (bkA : Request → Except PyExn AnthropicResponse)
      (bkM : Request → Except PyExn MistralResponse),
    (∀ prompts : List String,
      1 < prompts.length → 1 < m.max_workers →
      order.Perm (List.range prompts.length) →
      (∃ p ∈ prompts, ∃ e,
        (AnthropicLanguageModel.process_single_prompt m bkA p
          (buildConfig m.temperature kw)).2 = .error e) →
      (AnthropicLanguageModel.infer m bkA prompts kw order).yielded = [] ∧
      (AnthropicLanguageModel.infer m bkA prompts kw order).error.isSome =
        true) ∧
    (∀ prompts : List String,
      1 < prompts.length → 1 < m.max_workers →
      order.Perm (List.range prompts.length) →
      (∃ p ∈ prompts, ∃ e,
        (MistralLanguageModel.process_single_prompt m bkM p
          (buildConfig m.temperature kw)).2 = .error e) →
      (MistralLanguageModel.infer m bkM prompts kw order).yielded = [] ∧
      (MistralLanguageModel.infer m bkM prompts kw order).error.isSome =
        true) ∧
    (∀ (fA : String → ScoredOutput) (pre : List String) (p : String)
       (rest : List String) (e : PyExn),
      ¬(1 < (pre ++ p :: rest).length ∧ 1 < m.max_workers) →
      (∀ q ∈ pre,
        (AnthropicLanguageModel.process_single_prompt m bkA q
          (buildConfig m.temperature kw)).2 = .ok (fA q)) →
      (AnthropicLanguageModel.process_single_prompt m bkA p
        (buildConfig m.temperature kw)).2 = .error e →
      (AnthropicLanguageModel.infer m bkA (pre ++ p :: rest) kw order).yielded =
        pre.map (fun q => [fA q]) ∧
      (AnthropicLanguageModel.infer m bkA (pre ++ p :: rest) kw order).error =
        some e) ∧
    (∀ (fM : String → ScoredOutput) (pre : List String) (p : String)
       (rest : List String) (e : PyExn),
      ¬(1 < (pre ++ p :: rest).length ∧ 1 < m.max_workers) →
      (∀ q ∈ pre,
        (MistralLanguageModel.process_single_prompt m bkM q
          (buildConfig m.temperature kw)).2 = .ok (fM q)) →
      (MistralLanguageModel.process_single_prompt m bkM p
        (buildConfig m.temperature kw)).2 = .error e →
      (MistralLanguageModel.infer m bkM (pre ++ p :: rest) kw order).yielded =
        pre.map (fun q => [fM q]) ∧
      (MistralLanguageModel.infer m bkM (pre ++ p :: rest) kw order).error =
        some e) := by
  intro m kw order bkA bkM
  refine ⟨?_, ?_, ?_, ?_⟩
  · intro prompts h1 h2 horder hfail
    obtain ⟨hy, e, _, he⟩ := inferGeneric_parallel_error m.max_workers
      (fun p => AnthropicLanguageModel.process_single_prompt m bkA p
        (buildConfig m.temperature kw)) prompts order h1 h2 horder hfail
    refine ⟨hy, ?_⟩
    show (inferGeneric m.max_workers _ prompts order).error.isSome = true
    rw [he]
    rfl
  · intro prompts h1 h2 horder hfail
    obtain ⟨hy, e, _, he⟩ := inferGeneric_parallel_error m.max_workers
      (fun p => MistralLanguageModel.process_single_prompt m bkM p
        (buildConfig m.temperature kw)) prompts order h1 h2 horder hfail
    refine ⟨hy, ?_⟩
    show (inferGeneric m.max_workers _ prompts order).error.isSome = true
    rw [he]
    rfl
  · intro fA pre p rest e hw hpre hp
    obtain ⟨hy, he, _⟩ := inferGeneric_seq_firstError m.max_workers
      (fun q => AnthropicLanguageModel.process_single_prompt m bkA q
        (buildConfig m.temperature kw)) fA pre p rest e order hw hpre hp
    exact ⟨hy, he⟩
  · intro fM pre p rest e hw hpre hp
    obtain ⟨hy, he, _⟩ := inferGeneric_seq_firstError m.max_workers
      (fun q => MistralLanguageModel.process_single_prompt m bkM q
        (buildConfig m.temperature kw)) fM pre p rest e order hw hpre hp
    exact ⟨hy, he⟩

/-- C1 amended witness: the parallel path with one failing prompt
yields nothing; the sequential path with the same batch yields the first
prompt's output before raising. -/
theorem infer_failfast_amended_witness :
    ((AnthropicLanguageModel.infer mPar failBBackendA ["a", "b"] kw0
        [1, 0]).yielded = [] ∧
      (AnthropicLanguageModel.infer mPar failBBackendA ["a", "b"] kw0
        [1, 0]).error.isSome = true) ∧
    ((AnthropicLanguageModel.infer mSeq failBBackendA ["a", "b"] kw0
        []).yielded = [[outScored]] ∧
      (AnthropicLanguageModel.infer mSeq failBBackendA ["a", "b"] kw0
        []).error = some boomWrappedA) := by
  constructor
  · exact (infer_failfast_amended mPar kw0 [1, 0] failBBackendA
      failBBackendM).1 ["a", "b"] (by decide) (by decide) (by decide)
      ⟨"b", by decide, boomWrappedA, rfl⟩
  · have h := (infer_failfast_amended mSeq kw0 [] failBBackendA
      failBBackendM).2.2.1 (fun _ => outScored) ["a"] "b" [] boomWrappedA
      (by decide) (by intro q hq; fin_cases hq; rfl) rfl
    simpa using h

/-- C4 counterexample: in the parallel path the raised
`InferenceRuntimeError`'s attached original is the intermediate
per-prompt `InferenceRuntimeError` wrapper — not the raw backend
exception — for both providers, refuting the claim that the original
error is directly attached without an intermediate wrapper. -/
theorem infer_parallel_wrap_cex :
    (AnthropicLanguageModel.infer mPar failBBackendA ["a", "b"] kw0
        [1, 0]).error =
      some (.inferenceRuntimeError
        "Parallel inference error: Anthropic API error: boom"
        (some (.inferenceRuntimeError "Anthropic API error: boom"
          (some (.backendError "boom"))))) ∧
    (MistralLanguageModel.infer mPar failBBackendM ["a", "b"] kw0
        [1, 0]).error =
      some (.inferenceRuntimeError
        "Parallel inference error: Mistral API error: boom"
        (some (.inferenceRuntimeError "Mistral API error: boom"
          (some (.backendError "boom"))))) ∧
    (PyExn.inferenceRuntimeError
        "Parallel inference error: Anthropic API error: boom"
        (some (.inferenceRuntimeError "Anthropic API error: boom"
          (some (.backendError "boom"))))).original ≠
      some (.backendError "boom") := by
  refine ⟨rfl, rfl, ?_⟩
  intro h
  simp [PyExn.original] at h

/-- C4 amended: in the sequential path the raised
`InferenceRuntimeError` directly carries the underlying exception; in
the parallel path it carries the per-prompt backend-tagged
`InferenceRuntimeError` wrapper, whose own original is the underlying
exception — the cause is preserved through the chain but an intermediate
wrapper is interposed. -/
theorem infer_error_original_amended :
    ∀ (m : ProviderConfig) (kw : InferKwargs) (prompts : List String)
      (order : List Nat)
      (bkA : Request → Except PyExn AnthropicResponse)
      (bkM : Request → Except PyExn MistralResponse) (err : PyExn),
    (¬(1 < prompts.length ∧ 1 < m.max_workers) →
      (AnthropicLanguageModel.infer m bkA prompts kw order).error = some err →
      ∃ e, err = .inferenceRuntimeError
        ("Anthropic API error: " ++ PyExn.str e) (some e)) ∧
    (1 < prompts.length → 1 < m.max_workers →
      order.Perm (List.range prompts.length) →
      (AnthropicLanguageModel.infer m bkA prompts kw order).error = some err →
      ∃ e, err = .inferenceRuntimeError
        ("Parallel inference error: " ++ ("Anthropic API error: " ++
          PyExn.str e))
        (some (.inferenceRuntimeError
          ("Anthropic API error: " ++ PyExn.str e) (some e)))) ∧
    (¬(1 < prompts.length ∧ 1 < m.max_workers) →
      (MistralLanguageModel.infer m bkM prompts kw order).error = some err →
      ∃ e, err = .inferenceRuntimeError
        ("Mistral API error: " ++ PyExn.str e) (some e)) ∧
    (1 < prompts.length → 1 < m.max_workers →
      order.Perm (List.range prompts.length) →
      (MistralLanguageModel.infer m bkM prompts kw order).error = some err →
      ∃ e, err = .inferenceRuntimeError
        ("Parallel inference error: " ++ ("Mistral API error: " ++
          PyExn.str e))
        (some (.inferenceRuntimeError
          ("Mistral API error: " ++ PyExn.str e) (some e)))) := by
  intro m kw prompts order bkA bkM err
  refine ⟨?_, ?_, ?_, ?_⟩
  · intro hbr herr
    have hseq : (runSequential (fun q =>
        AnthropicLanguageModel.process_single_prompt m bkA q
          (buildConfig m.temperature kw)) prompts).2.2 = some err := by
      have h0 : (AnthropicLanguageModel.infer m bkA prompts kw order).error =
          (runSequential (fun q =>
            AnthropicLanguageModel.process_single_prompt m bkA q
              (buildConfig m.temperature kw)) prompts).2.2 := by
        show (inferGeneric m.max_workers _ prompts order).error = _
        unfold inferGeneric
        rw [if_neg hbr]
      rw [h0] at herr
      exact herr
    obtain ⟨p, _, hp⟩ := runSequential_error_mem _ err prompts hseq
    exact anthropic_process_error_shape m bkA p
      (buildConfig m.temperature kw) err hp
  · intro h1 h2 horder herr
    have hpar : (runParallel (fun q =>
        AnthropicLanguageModel.process_single_prompt m bkA q
          (buildConfig m.temperature kw)) prompts order).2.2 = some err := by
      have h0 : (AnthropicLanguageModel.infer m bkA prompts kw order).error =
          (runParallel (fun q =>
            AnthropicLanguageModel.process_single_prompt m bkA q
              (buildConfig m.temperature kw)) prompts order).2.2 := by
        show (inferGeneric m.max_workers _ prompts order).error = _
        unfold inferGeneric
        rw [if_pos ⟨h1, h2⟩]
      rw [h0] at herr
      exact herr
    obtain ⟨e₀, ⟨p, _, hp⟩, hshape⟩ := runParallel_error_shape _ prompts
      order err horder hpar
    obtain ⟨e, he⟩ := anthropic_process_error_shape m bkA p
      (buildConfig m.temperature kw) e₀ hp
    refine ⟨e, ?_⟩
    rw [hshape, he]
    simp [PyExn.str]
  · intro hbr herr
    have hseq : (runSequential (fun q =>
        MistralLanguageModel.process_single_prompt m bkM q
          (buildConfig m.temperature kw)) prompts).2.2 = some err := by
      have h0 : (MistralLanguageModel.infer m bkM prompts kw order).error =
          (runSequential (fun q =>
            MistralLanguageModel.process_single_prompt m bkM q
              (buildConfig m.temperature kw)) prompts).2.2 := by
        show (inferGeneric m.max_workers _ prompts order).error = _
        unfold inferGeneric
        rw [if_neg hbr]
      rw [h0] at herr
      exact herr
    obtain ⟨p, _, hp⟩ := runSequential_error_mem _ err prompts hseq
    exact mistral_process_error_shape m bkM p
      (buildConfig m.temperature kw) err hp
  · intro h1 h2 horder herr
    have hpar : (runParallel (fun q =>
        MistralLanguageModel.process_single_prompt m bkM q
          (buildConfig m.temperature kw)) prompts order).2.2 = some err := by
      have h0 : (MistralLanguageModel.infer m bkM prompts kw order).error =
          (runParallel (fun q =>
            MistralLanguageModel.process_single_prompt m bkM q
              (buildConfig m.temperature kw)) prompts order).2.2 := by
        show (inferGeneric m.max_workers _ prompts order).error = _
        unfold inferGeneric
        rw [if_pos ⟨h1, h2⟩]
      rw [h0] at herr
      exact herr
    obtain ⟨e₀, ⟨p, _, hp⟩, hshape⟩ := runParallel_error_shape _ prompts
      order err horder hpar
    obtain ⟨e, he⟩ := mistral_process_error_shape m bkM p
      (buildConfig m.temperature kw) e₀ hp
    refine ⟨e, ?_⟩
    rw [hshape, he]
    simp [PyExn.str]

/-- C4 amended witness: the concrete parallel failure produces exactly
the doubly-wrapped error. -/
theorem infer_error_original_amended_witness :
    ∃ e, boomParallelA = PyExn.inferenceRuntimeError
      ("Parallel inference error: " ++ ("Anthropic API error: " ++
        PyExn.str e))
      (some (.inferenceRuntimeError
        ("Anthropic API error: " ++ PyExn.str e) (some e))) :=
  (infer_error_original_amended mPar kw0 ["a", "b"] [1, 0] failBBackendA
    failBBackendM boomParallelA).2.1 (by decide) (by decide) (by decide) rfl
